import Mathlib

/-!
# Verification of the build script of lapce/tree-sitter-grammars

This file gives a shallow embedding of the grammar build script
`src/make.py` and proves properties of it.

The effects of the script on the outside world are modelled by a `World`
record: the results of external commands (`subprocess.run`), directory
listings (used by `Path.glob` with the patterns `LICENSE*` and `COPYING*`),
file existence, and the enumeration of the `grammars` directory.  The
observable behaviour of the script is a trace of `Event` values: log lines,
`print` calls, external command invocations, and file copies
(`shutil.copy`).

A successful invocation of `tree-sitter build --output P .` is the event
that writes the library file `P`.  `shutil.copy` raises `FileNotFoundError`
when its source does not exist, which is modelled by a crash flag that
aborts the remainder of the batch, since the script has no exception
handler.
-/

namespace Make

/-- A filesystem path, as a list of components (`pathlib.Path` parts). -/
abbrev Path := List String

/-- Render a path the way it appears in log messages and command lines. -/
def pathToString (p : Path) : String :=
  String.intercalate "/" p

/-- Model of `pathlib.Path.name`: the final path component. -/
def pathName (p : Path) : String :=
  (p.getLast?).getD ""

/-- Model of `Path.resolve`: eliminate `..` components. -/
def resolvePath (p : Path) : Path :=
  p.foldl (fun acc c => if c = ".." then acc.dropLast else acc ++ [c]) []

/-- Model of `str.startswith`, over the characters of the string. -/
def startsWith (s p : String) : Bool :=
  p.data.isPrefixOf s.data

/-- Result of one external process (`subprocess.CompletedProcess`). -/
structure ProcResult where
  returncode : Int
  stdout : List String
  stderr : List String

/-- One observable step of the script. -/
inductive Event where
  /-- log line from `logger.debug` or `logging.debug` -/
  | logDebug (msg : String)
  /-- log line from `logger.info` or `logging.info` -/
  | logInfo (msg : String)
  /-- log line from `logging.error` -/
  | logError (msg : String)
  /-- bare `print` (CI group markers and separators) -/
  | printLine (msg : String)
  /-- an external command was executed in `workdir`; `ok` records exit 0 -/
  | exec (command : List String) (workdir : Path) (ok : Bool)
  /-- `shutil.copy src dest` succeeded -/
  | copyFile (src : Path) (dest : Path)
  deriving DecidableEq, Repr

/-- The external world the script interacts with. -/
structure World where
  /-- value of `platform.system()` -/
  system : String
  /-- whether the variable `GITHUB_ACTIONS` is set -/
  ci : Bool
  /-- result of executing a command in a working directory -/
  exec : List String → Path → ProcResult
  /-- result of `Path.is_dir` -/
  isDir : Path → Bool
  /-- directory entry names in `os.scandir` order (used by `Path.glob`) -/
  listDir : Path → List String
  /-- result of `Path.exists` -/
  fileExists : Path → Bool
  /-- entries of the grammars directory from `iterdir`, in `os.scandir` order -/
  grammarsEntries : List Path

/-- Model of `lib_suffix`: dynamic library suffix for the OS. -/
def lib_suffix (system : String) : String :=
  if system = "Windows" then "dll"
  else if system = "Linux" then "so"
  else if system = "Darwin" then "dylib"
  else ""

/-- Model of `run`: execute one external command, forward every captured
stdout and stderr line to the logger, and turn a non-zero exit code into an
ordinary `false` result after logging `err`. -/
def run (w : World) (command : List String) (workdir : Path) (err : String) :
    List Event × Bool :=
  let proc := w.exec command workdir
  let evs :=
    [Event.logDebug ("workdir: " ++ pathToString workdir),
     Event.logDebug ("command: " ++ String.intercalate " " command),
     Event.exec command workdir (proc.returncode == 0)]
    ++ proc.stdout.map Event.logInfo
    ++ proc.stderr.map Event.logInfo
  if proc.returncode == 0 then (evs, true)
  else (evs ++ [Event.logError err], false)

/-- The `err` string passed by `ts_build` to `run`. -/
def failMsg (command : List String) (grammar : Path) : String :=
  "Failed to execute " ++ String.intercalate " " command ++ " for "
    ++ pathToString grammar

/-- The library file name targeted by the build command. -/
def libFileName (w : World) (grammar_name : String) : String :=
  "lib" ++ grammar_name ++ "." ++ lib_suffix w.system

/-- The `tree-sitter build` command of `ts_build`. -/
def buildCommand (w : World) (grammar_name : String) (output : Path) :
    List String :=
  ["tree-sitter", "build", "--output",
   pathToString (output ++ [libFileName w grammar_name]), "."]

/-- Early-return sequencing of two build steps: when the first step failed,
its `return False` skips the second step entirely. -/
def step (prev next : List Event × Bool) : List Event × Bool :=
  if prev.2 then (prev.1 ++ next.1, next.2) else (prev.1, false)

/-- Model of `ts_build`: optional `npm install`, optional
`tree-sitter generate --no-bindings`, then `tree-sitter build`; it stops at
the first failing step. -/
def ts_build (w : World) (grammar : Path) (grammar_name : String)
    (output : Path) (generate npm : Bool) : List Event × Bool :=
  let npmStep : List Event × Bool :=
    if npm then
      run w ["npm", "install"] (resolvePath grammar)
        (failMsg ["npm", "install"] grammar)
    else ([], true)
  let genStep : List Event × Bool :=
    if generate then
      run w ["tree-sitter", "generate", "--no-bindings"] (resolvePath grammar)
        (failMsg ["tree-sitter", "generate", "--no-bindings"] grammar)
    else ([], true)
  let buildStep :=
    run w (buildCommand w grammar_name output) grammar
      (failMsg (buildCommand w grammar_name output) grammar)
  step (step npmStep genStep) buildStep

/-- Model of the inner function `_build_multi`: build each subdirectory as
its own unit.  A failed unit only skips to the next unit, because the
`continue` targets the loop inside `_build_multi` itself, so the caller
always proceeds to the license phase. -/
def build_multi (w : World) (grammar : Path) (grammar_name : String)
    (output : Path) (dirs : List Path) (generate npm : Bool) : List Event :=
  (dirs.map fun subdir =>
    (ts_build w (grammar ++ subdir) grammar_name output generate npm).1).flatten

/-- Model of the inner function `_copy_lic`: log, then `shutil.copy` the
source to the grammar-named `.LICENSE` file in the output directory.  When
the source file is missing, `shutil.copy` raises `FileNotFoundError`; the
second component records that crash. -/
def copy_lic (w : World) (output : Path) (grammar_name : String) (src : Path) :
    List Event × Bool :=
  let logE := Event.logInfo ("copying " ++ pathToString src)
  if w.fileExists src then
    ([logE, Event.copyFile src (output ++ [grammar_name ++ ".LICENSE"])], false)
  else
    ([logE], true)

/-- The default license lookup of the license phase: the first match of
the non-recursive glob `COPYING*`, else the first match of `LICENSE*`. -/
def selectLic (w : World) (grammar : Path) : Option Path :=
  let licMatches := (w.listDir grammar).filter fun n => startsWith n "LICENSE"
  let copMatches := (w.listDir grammar).filter fun n => startsWith n "COPYING"
  match copMatches with
  | c :: _ => some (grammar ++ [c])
  | [] =>
    match licMatches with
    | l :: _ => some (grammar ++ [l])
    | [] => none

/-- The license phase of the per-project loop body (the `match grammar_name`
at the end of `build`): four hard-coded override paths, otherwise the glob
lookup with the `COPYING`-beats-`LICENSE` rule.  Second component: crash. -/
def licensePhase (w : World) (output : Path) (grammar_name : String)
    (grammar : Path) : List Event × Bool :=
  if grammar_name = "tree-sitter-dhall" then
    copy_lic w output grammar_name (grammar ++ ["LICENSE"])
  else if grammar_name = "tree-sitter-rcl" then
    copy_lic w output grammar_name (resolvePath (grammar ++ ["..", "..", "LICENSE"]))
  else if grammar_name = "tree-sitter-ron" then
    copy_lic w output grammar_name (grammar ++ ["LICENSE-APACHE"])
  else if grammar_name = "tree-sitter-slint" then
    copy_lic w output grammar_name (grammar ++ ["LICENSES", "MIT.txt"])
  else
    match selectLic w grammar with
    | some lic =>
      if w.fileExists lic then
        let sfx := if startsWith (pathName lic) "COPYING" then "COPYING"
                   else "LICENSE"
        ([Event.logInfo ("copying " ++ pathToString lic),
          Event.copyFile lic (output ++ [grammar_name ++ "." ++ sfx])], false)
      else
        ([Event.logError (grammar_name ++ ": No licence found!!!")], false)
    | none => ([Event.logError (grammar_name ++ ": No licence found!!!")], false)

/-- The build phase of the per-project loop body (the second
`match grammar_name` in `build`).  Second component: `true` means the Python
`continue` fired (the project is abandoned before the license phase); the
multi-unit cases never `continue` out of the project. -/
def buildPhase (w : World) (output : Path) (grammar_name : String)
    (grammar : Path) : List Event × Bool :=
  if grammar_name = "tree-sitter-astro" then
    let r := ts_build w grammar grammar_name output true true
    (r.1, !r.2)
  else if grammar_name = "tree-sitter-cpp" then
    let r := ts_build w grammar grammar_name output true true
    (r.1, !r.2)
  else if grammar_name = "tree-sitter-c-sharp" then
    let r := ts_build w grammar grammar_name output false false
    (r.1, !r.2)
  else if grammar_name = "tree-sitter-glsl" then
    let r := ts_build w grammar grammar_name output true true
    (r.1, !r.2)
  else if grammar_name = "tree-sitter-markdown" then
    (build_multi w grammar grammar_name output
      [["tree-sitter-markdown"], ["tree-sitter-markdown-inline"]] false false,
     false)
  else if grammar_name = "tree-sitter-ocaml" then
    (build_multi w grammar grammar_name output
      [["grammars", "ocaml"], ["grammars", "interface"], ["grammars", "type"]]
      false false,
     false)
  else if grammar_name = "tree-sitter-typescript" then
    (build_multi w grammar grammar_name output [["tsx"], ["typescript"]]
      false true,
     false)
  else if grammar_name = "tree-sitter-wasm" then
    (build_multi w grammar grammar_name output [["wast"], ["wat"]] false false,
     false)
  else
    let r := ts_build w grammar grammar_name output true false
    (r.1, !r.2)

/-- The relocation cases of the prep phase: `tree-sitter-rcl` and
`tree-sitter-php` reassign `grammar` to a nested subdirectory. -/
def relocate (grammar_name : String) (grammar : Path) : Path :=
  if grammar_name = "tree-sitter-rcl" then
    grammar ++ ["grammar", "tree-sitter-rcl"]
  else if grammar_name = "tree-sitter-php" then grammar ++ ["php"]
  else grammar

/-- One iteration of the `for grammar in grammars` loop in `build`:
directory check, group header, exclusion layer, relocation layer, build
phase, license phase, group footer.  Second component: `true` iff an
uncaught exception escaped (missing source of a hard-coded license copy). -/
def processGrammar (w : World) (output : Path) (grammar0 : Path) :
    List Event × Bool :=
  if w.isDir grammar0 = false then
    ([Event.logInfo ("skipping path: " ++ pathToString grammar0)], false)
  else
    let grammar_name := pathName grammar0
    let headerEvs :=
      (if w.ci then [Event.printLine ("::group::Build " ++ grammar_name)]
       else [Event.printLine "---"])
      ++ [Event.logInfo ("building grammar: " ++ grammar_name)]
    if grammar_name = "tree-sitter-adl" then
      (headerEvs ++ [Event.logInfo "skip building: bad licence"], false)
    else if grammar_name = "tree-sitter-angular" then
      (headerEvs ++ [Event.logInfo "skip building: bad licence"], false)
    else if grammar_name = "tree-sitter-glimmer" then
      (headerEvs ++ [Event.logInfo "skip building: bad licence"], false)
    else if grammar_name = "tree-sitter-odin" then
      (headerEvs ++ [Event.logInfo "skip building: unknown issue"], false)
    else
      let grammar := relocate grammar_name grammar0
      let bp := buildPhase w output grammar_name grammar
      if bp.2 then (headerEvs ++ bp.1, false)
      else
        let lp := licensePhase w output grammar_name grammar
        if lp.2 then (headerEvs ++ bp.1 ++ lp.1, true)
        else
          let footer := if w.ci then [Event.printLine "\n::endgroup::"] else []
          (headerEvs ++ bp.1 ++ lp.1 ++ footer, false)

/-- The `for` loop of `build` over the resolved project list; an uncaught
exception in one iteration aborts the whole batch (no handler exists). -/
def runBatch (w : World) (output : Path) : List Path → List Event × Bool
  | [] => ([], false)
  | g :: gs =>
    let r := processGrammar w output g
    if r.2 then (r.1, true)
    else
      let rest := runBatch w output gs
      (r.1 ++ rest.1, rest.2)

/-- The sort key of a path: its components as code-point sequences.  Python
compares `Path` objects by their parts tuple, and strings code point by code
point, which is exactly the lexicographic order on these keys. -/
def pathKey (p : Path) : List (List Nat) :=
  p.map fun s => s.data.map Char.toNat

/-- The comparison `sorted` uses on paths (lexicographic). -/
def pathLe (p q : Path) : Prop :=
  pathKey p ≤ pathKey q

instance : DecidableRel pathLe := fun p q =>
  inferInstanceAs (Decidable (pathKey p ≤ pathKey q))

theorem charToNat_injective : Function.Injective Char.toNat := fun a b h => by
  rw [← Char.ofNat_toNat a, ← Char.ofNat_toNat b, h]

theorem pathKey_injective : Function.Injective pathKey := by
  apply List.map_injective_iff.mpr
  intro s t h
  have h2 := List.map_injective_iff.mpr charToNat_injective h
  cases s; cases t; simp only at h2; rw [h2]

instance : IsTotal Path pathLe := ⟨fun p q => le_total (pathKey p) (pathKey q)⟩

instance : IsTrans Path pathLe :=
  ⟨fun _ _ _ h1 h2 => le_trans (α := List (List Nat)) h1 h2⟩

instance : IsAntisymm Path pathLe :=
  ⟨fun _ _ h1 h2 => pathKey_injective (le_antisymm h1 h2)⟩

/-- Model of `sorted` over paths: a stable sort for the `pathLe` order. -/
def sortPaths (l : List Path) : List Path :=
  l.insertionSort pathLe

/-- The project list `build` iterates over: the explicit argument, or the
sorted entries of the grammars directory when the argument is empty. -/
def projectList (w : World) (grammars : List Path) : List Path :=
  if grammars.isEmpty then sortPaths w.grammarsEntries else grammars

/-- Model of `build`: the batch entrypoint. -/
def build (w : World) (output : Path) (grammars : List Path) :
    List Event × Bool :=
  runBatch w output (projectList w grammars)

/-- Is this event an external command invocation? -/
def Event.isExec : Event → Bool
  | .exec _ _ _ => true
  | _ => false

/-- Exit status of an exec event (`true` for non-exec events). -/
def Event.execOk : Event → Bool
  | .exec _ _ ok => ok
  | _ => true

/-- Is this event a file copy? -/
def Event.isCopy : Event → Bool
  | .copyFile _ _ => true
  | _ => false

/-- Every external command in the event succeeded (or it is not an exec). -/
def execAllOk (e : Event) : Bool := !e.isExec || e.execOk

/-- The library files written during a trace: each successful
`tree-sitter build --output P .` writes `P`. -/
def libWrites (evs : List Event) : List String :=
  evs.filterMap fun e =>
    match e with
    | .exec ["tree-sitter", "build", "--output", p, "."] _ true => some p
    | _ => none

/-- The license files written during a trace (destinations of copies). -/
def licenseWrites (evs : List Event) : List String :=
  evs.filterMap fun e =>
    match e with
    | .copyFile _ dest => some (pathToString dest)
    | _ => none



def c5World : World where
  system := "Linux"
  ci := false
  exec := fun _ _ => ⟨2, ["outline"], ["errline"]⟩
  isDir := fun _ => true
  listDir := fun _ => []
  fileExists := fun _ => false
  grammarsEntries := []

def c9World : World where
  system := "Linux"
  ci := false
  exec := fun _ _ => ⟨0, [], []⟩
  isDir := fun _ => false
  listDir := fun _ => []
  fileExists := fun _ => true
  grammarsEntries := []

/-- Is the event not an external command invocation? -/
def noExecEvent (e : Event) : Bool := !e.isExec

/-- Is the event one of the two exclusion-layer skip log lines? -/
def skipLogEvent (e : Event) : Bool :=
  (e == Event.logInfo "skip building: bad licence") ||
  (e == Event.logInfo "skip building: unknown issue")

def c6World : World where
  system := "Linux"
  ci := false
  exec := fun _ _ => ⟨0, [], []⟩
  isDir := fun _ => true
  listDir := fun _ => []
  fileExists := fun _ => true
  grammarsEntries := []

/-- Does a copy event (if it is one) have destination `o ++ [f]`? -/
def copyDestIs (o : Path) (f : String) (e : Event) : Bool :=
  match e with
  | .copyFile _ dest => dest == o ++ [f]
  | _ => true

def c10World : World where
  system := "Linux"
  ci := false
  exec := fun _ _ => ⟨0, [], []⟩
  isDir := fun _ => true
  listDir := fun _ => ["LICENSE-APACHE", "COPYING"]
  fileExists := fun _ => true
  grammarsEntries := []

def c4World : World where
  system := "Linux"
  ci := false
  exec := fun _ _ => ⟨0, [], []⟩
  isDir := fun _ => true
  listDir := fun _ => ["LICENSE.txt", "COPYING.md"]
  fileExists := fun _ => true
  grammarsEntries := []

/-- A world where the `wast` unit of `tree-sitter-wasm` fails to compile and
everything else succeeds; a `LICENSE` file is present. -/
def wasmFailWorld : World where
  system := "Linux"
  ci := false
  exec := fun _ wd =>
    if wd = ["grammars", "tree-sitter-wasm", "wast"] then ⟨1, [], []⟩
    else ⟨0, [], []⟩
  isDir := fun _ => true
  listDir := fun _ => ["LICENSE"]
  fileExists := fun _ => true
  grammarsEntries := []

/-- A world where every command succeeds and a `LICENSE` file is present. -/
def allOkWorld : World where
  system := "Linux"
  ci := false
  exec := fun _ _ => ⟨0, [], []⟩
  isDir := fun _ => true
  listDir := fun _ => ["LICENSE"]
  fileExists := fun _ => true
  grammarsEntries := []

/-- Did the trace log the start of processing for project name `n`? -/
def logsBuildingOf (n : String) (e : Event) : Bool :=
  e == Event.logInfo ("building grammar: " ++ n)

/-- A world where every command succeeds but no file (in particular no
license file) exists; the hard-coded license copy of `tree-sitter-dhall`
then raises `FileNotFoundError`. -/
def noLicenseWorld : World where
  system := "Linux"
  ci := false
  exec := fun _ _ => ⟨0, [], []⟩
  isDir := fun _ => true
  listDir := fun _ => []
  fileExists := fun _ => false
  grammarsEntries := []

/-- Is the event an invocation of exactly the command `c`? -/
def execOfCmd (c : List String) (e : Event) : Bool :=
  match e with
  | .exec c2 _ _ => c == c2
  | _ => false

/-- Is the event not an invocation of `npm install`? -/
def notNpmInstall (e : Event) : Bool := !(execOfCmd ["npm", "install"] e)

def c7World : World where
  system := "Linux"
  ci := false
  exec := fun _ _ => ⟨0, [], []⟩
  isDir := fun _ => true
  listDir := fun _ => ["LICENSE"]
  fileExists := fun _ => true
  grammarsEntries := []

def c8World : World where
  system := "Linux"
  ci := false
  exec := fun _ _ => ⟨0, [], []⟩
  isDir := fun _ => true
  listDir := fun _ => ["LICENSE"]
  fileExists := fun _ => true
  grammarsEntries := [["grammars", "tree-sitter-b"], ["grammars", "tree-sitter-a"]]

def c8World2 : World where
  system := "Linux"
  ci := false
  exec := fun _ _ => ⟨0, [], []⟩
  isDir := fun _ => true
  listDir := fun _ => ["LICENSE"]
  fileExists := fun _ => true
  grammarsEntries := [["grammars", "tree-sitter-a"], ["grammars", "tree-sitter-b"]]

theorem run_snd (w : World) (c : List String) (d : Path) (e : String) :
    (run w c d e).2 = ((w.exec c d).returncode == 0) := by
  simp only [run]
  split <;> simp_all

theorem run_event_cases (w : World) (c : List String) (d : Path) (e : String) :
    ∀ ev ∈ (run w c d e).1,
      ev = Event.logDebug ("workdir: " ++ pathToString d) ∨
      ev = Event.logDebug ("command: " ++ String.intercalate " " c) ∨
      ev = Event.exec c d ((w.exec c d).returncode == 0) ∨
      (∃ l, ev = Event.logInfo l) ∨
      ev = Event.logError e := by
  intro ev hm
  simp only [run] at hm
  split at hm
  · simp only [List.mem_append, List.mem_cons, List.not_mem_nil, or_false,
      List.mem_map] at hm
    rcases hm with ((rfl | rfl | rfl) | ⟨a, -, rfl⟩) | ⟨a, -, rfl⟩
    · exact Or.inl rfl
    · exact Or.inr (Or.inl rfl)
    · exact Or.inr (Or.inr (Or.inl rfl))
    · exact Or.inr (Or.inr (Or.inr (Or.inl ⟨a, rfl⟩)))
    · exact Or.inr (Or.inr (Or.inr (Or.inl ⟨a, rfl⟩)))
  · simp only [List.mem_append, List.mem_cons, List.not_mem_nil, or_false,
      List.mem_map] at hm
    rcases hm with (((rfl | rfl | rfl) | ⟨a, -, rfl⟩) | ⟨a, -, rfl⟩) | rfl
    · exact Or.inl rfl
    · exact Or.inr (Or.inl rfl)
    · exact Or.inr (Or.inr (Or.inl rfl))
    · exact Or.inr (Or.inr (Or.inr (Or.inl ⟨a, rfl⟩)))
    · exact Or.inr (Or.inr (Or.inr (Or.inl ⟨a, rfl⟩)))
    · exact Or.inr (Or.inr (Or.inr (Or.inr rfl)))

theorem run_exec_shape (w : World) (c : List String) (d : Path) (e : String) :
    ∀ ev ∈ (run w c d e).1, ev.isExec = true →
      ev = Event.exec c d ((w.exec c d).returncode == 0) := by
  intro ev hm hx
  rcases run_event_cases w c d e ev hm with rfl | rfl | rfl | ⟨l, rfl⟩ | rfl <;>
    first | rfl | simp [Event.isExec] at hx

theorem run_no_copy (w : World) (c : List String) (d : Path) (e : String) :
    ∀ ev ∈ (run w c d e).1, ev.isCopy = false := by
  intro ev hm
  rcases run_event_cases w c d e ev hm with rfl | rfl | rfl | ⟨l, rfl⟩ | rfl <;>
    rfl

theorem run_all_ok (w : World) (c : List String) (d : Path) (e : String)
    (h : (run w c d e).2 = true) :
    ∀ ev ∈ (run w c d e).1, execAllOk ev = true := by
  intro ev hm
  by_cases hx : ev.isExec = true
  · have hs := run_exec_shape w c d e ev hm hx
    rw [run_snd] at h
    subst hs
    simp [execAllOk, Event.isExec, Event.execOk, h]
  · simp only [Bool.not_eq_true] at hx
    simp [execAllOk, hx]

theorem step_snd_true {p n : List Event × Bool} (h : (step p n).2 = true) :
    p.2 = true ∧ n.2 = true := by
  unfold step at h
  split at h <;> simp_all

theorem step_mem {p n : List Event × Bool} {ev : Event}
    (h : ev ∈ (step p n).1) : ev ∈ p.1 ∨ (p.2 = true ∧ ev ∈ n.1) := by
  unfold step at h
  split at h
  · simp only [List.mem_append] at h
    rcases h with h | h
    · exact Or.inl h
    · exact Or.inr ⟨by assumption, h⟩
  · exact Or.inl h

theorem ts_build_all_ok (w : World) (g : Path) (n : String) (o : Path)
    (gen npm : Bool) (h : (ts_build w g n o gen npm).2 = true) :
    ∀ ev ∈ (ts_build w g n o gen npm).1, execAllOk ev = true := by
  intro ev hm
  simp only [ts_build] at h hm
  have hsnd := step_snd_true h
  have hsnd2 := step_snd_true hsnd.1
  rcases step_mem hm with h1 | ⟨-, h3⟩
  · rcases step_mem h1 with h1 | ⟨-, h2⟩
    · revert h1
      cases npm <;> simp only [Bool.false_eq_true, if_true, if_false]
      · intro h1; exact absurd h1 (List.not_mem_nil ev)
      · intro h1; exact run_all_ok _ _ _ _ hsnd2.1 ev h1
    · revert h2
      cases gen <;> simp only [Bool.false_eq_true, if_true, if_false]
      · intro h2; exact absurd h2 (List.not_mem_nil ev)
      · intro h2; exact run_all_ok _ _ _ _ hsnd2.2 ev h2
  · exact run_all_ok _ _ _ _ hsnd.2 ev h3

theorem ts_build_no_copy (w : World) (g : Path) (n : String) (o : Path)
    (gen npm : Bool) :
    ∀ ev ∈ (ts_build w g n o gen npm).1, ev.isCopy = false := by
  intro ev hm
  simp only [ts_build] at hm
  rcases step_mem hm with h1 | ⟨-, h3⟩
  · rcases step_mem h1 with h1 | ⟨-, h2⟩
    · revert h1
      cases npm <;> simp only [Bool.false_eq_true, if_true, if_false]
      · intro h1; exact absurd h1 (List.not_mem_nil ev)
      · intro h1; exact run_no_copy _ _ _ _ ev h1
    · revert h2
      cases gen <;> simp only [Bool.false_eq_true, if_true, if_false]
      · intro h2; exact absurd h2 (List.not_mem_nil ev)
      · intro h2; exact run_no_copy _ _ _ _ ev h2
  · exact run_no_copy _ _ _ _ ev h3



theorem build_multi_no_copy (w : World) (g : Path) (n : String) (o : Path)
    (dirs : List Path) (gen npm : Bool) :
    ∀ ev ∈ build_multi w g n o dirs gen npm, ev.isCopy = false := by
  intro ev hm
  simp only [build_multi, List.mem_flatten, List.mem_map] at hm
  obtain ⟨l, ⟨sub, -, rfl⟩, hl⟩ := hm
  exact ts_build_no_copy _ _ _ _ _ _ ev hl

theorem copy_lic_no_exec (w : World) (o : Path) (n : String) (src : Path) :
    ∀ ev ∈ (copy_lic w o n src).1, ev.isExec = false := by
  intro ev hm
  simp only [copy_lic] at hm
  split at hm <;> simp only [List.mem_cons, List.not_mem_nil, or_false] at hm
  · rcases hm with rfl | rfl <;> rfl
  · rcases hm with rfl; rfl

theorem copy_lic_copy_shape (w : World) (o : Path) (n : String) (src : Path) :
    ∀ ev ∈ (copy_lic w o n src).1, ev.isCopy = true →
      ev = Event.copyFile src (o ++ [n ++ ".LICENSE"]) := by
  intro ev hm hc
  simp only [copy_lic] at hm
  split at hm <;> simp only [List.mem_cons, List.not_mem_nil, or_false] at hm
  · rcases hm with rfl | rfl
    · simp [Event.isCopy] at hc
    · rfl
  · rcases hm with rfl; simp [Event.isCopy] at hc

theorem licensePhase_no_exec (w : World) (o : Path) (n : String) (g : Path) :
    ∀ ev ∈ (licensePhase w o n g).1, ev.isExec = false := by
  intro ev hm
  simp only [licensePhase] at hm
  split_ifs at hm
  any_goals exact copy_lic_no_exec _ _ _ _ ev hm
  rcases hsel : selectLic w g with - | lic <;> rw [hsel] at hm
  · simp only [List.mem_cons, List.not_mem_nil, or_false] at hm
    rcases hm with rfl; rfl
  · dsimp only at hm
    by_cases hex : w.fileExists lic = true
    · rw [if_pos hex] at hm
      simp only [List.mem_cons, List.not_mem_nil, or_false] at hm
      rcases hm with rfl | rfl <;> rfl
    · rw [if_neg hex] at hm
      simp only [List.mem_cons, List.not_mem_nil, or_false] at hm
      rcases hm with rfl; rfl

theorem licensePhase_copy_dest (w : World) (o : Path) (g : Path) (n : String)
    (hn1 : n ≠ "tree-sitter-dhall") (hn2 : n ≠ "tree-sitter-rcl")
    (hn3 : n ≠ "tree-sitter-ron") (hn4 : n ≠ "tree-sitter-slint") :
    ∀ ev ∈ (licensePhase w o n g).1, ev.isCopy = true →
      ∃ lic sfx, selectLic w g = some lic ∧
        (sfx = "LICENSE" ∨ sfx = "COPYING") ∧
        ev = Event.copyFile lic (o ++ [n ++ "." ++ sfx]) := by
  intro ev hm hc
  simp only [licensePhase, if_neg hn1, if_neg hn2, if_neg hn3, if_neg hn4] at hm
  rcases hsel : selectLic w g with - | lic <;> rw [hsel] at hm
  · simp only [List.mem_cons, List.not_mem_nil, or_false] at hm
    rcases hm with rfl; simp [Event.isCopy] at hc
  · dsimp only at hm
    by_cases hex : w.fileExists lic = true
    · rw [if_pos hex] at hm
      simp only [List.mem_cons, List.not_mem_nil, or_false] at hm
      rcases hm with rfl | rfl
      · simp [Event.isCopy] at hc
      · refine ⟨lic, _, rfl, ?_, rfl⟩
        split <;> simp
    · rw [if_neg hex] at hm
      simp only [List.mem_cons, List.not_mem_nil, or_false] at hm
      rcases hm with rfl; simp [Event.isCopy] at hc



theorem buildPhase_no_copy (w : World) (o : Path) (n : String) (g : Path) :
    ∀ ev ∈ (buildPhase w o n g).1, ev.isCopy = false := by
  intro ev hm
  simp only [buildPhase] at hm
  split_ifs at hm <;>
    first
      | exact ts_build_no_copy _ _ _ _ _ _ ev hm
      | exact build_multi_no_copy _ _ _ _ _ _ _ ev hm

theorem buildPhase_all_ok (w : World) (o : Path) (n : String) (g : Path)
    (hm1 : n ≠ "tree-sitter-markdown") (hm2 : n ≠ "tree-sitter-ocaml")
    (hm3 : n ≠ "tree-sitter-typescript") (hm4 : n ≠ "tree-sitter-wasm")
    (h : (buildPhase w o n g).2 = false) :
    ∀ ev ∈ (buildPhase w o n g).1, execAllOk ev = true := by
  intro ev hm
  simp only [buildPhase] at h hm
  split_ifs at h hm with e1 e2 e3 e4 <;>
    (simp only [Bool.not_eq_false'] at h;
     exact ts_build_all_ok _ _ _ _ _ _ h ev hm)



theorem header_mem (w : World) (n : String) {e : Event}
    (he : e ∈ (if w.ci then [Event.printLine ("::group::Build " ++ n)]
                else [Event.printLine "---"])
              ++ [Event.logInfo ("building grammar: " ++ n)]) :
    e = Event.printLine ("::group::Build " ++ n) ∨
    e = Event.printLine "---" ∨
    e = Event.logInfo ("building grammar: " ++ n) := by
  rcases List.mem_append.mp he with h | h
  · split at h <;>
      simp only [List.mem_cons, List.not_mem_nil, or_false] at h <;> tauto
  · simp only [List.mem_cons, List.not_mem_nil, or_false] at h; tauto

theorem processGrammar_mem (w : World) (o g : Path) {ev : Event}
    (hm : ev ∈ (processGrammar w o g).1) :
    ev = Event.printLine ("::group::Build " ++ pathName g) ∨
    ev = Event.printLine "---" ∨
    ev = Event.logInfo ("building grammar: " ++ pathName g) ∨
    ev = Event.logInfo "skip building: bad licence" ∨
    ev = Event.logInfo "skip building: unknown issue" ∨
    ev = Event.logInfo ("skipping path: " ++ pathToString g) ∨
    ev ∈ (buildPhase w o (pathName g) (relocate (pathName g) g)).1 ∨
    ((buildPhase w o (pathName g) (relocate (pathName g) g)).2 = false ∧
      ev ∈ (licensePhase w o (pathName g) (relocate (pathName g) g)).1) ∨
    ev = Event.printLine "\n::endgroup::" := by
  simp only [processGrammar] at hm
  by_cases hd : w.isDir g = false
  · rw [if_pos hd] at hm
    simp only [List.mem_cons, List.not_mem_nil, or_false] at hm
    tauto
  · rw [if_neg hd] at hm
    by_cases e1 : pathName g = "tree-sitter-adl"
    · rw [if_pos e1] at hm
      rcases List.mem_append.mp hm with h | h
      · rcases header_mem w _ h with rfl | rfl | rfl <;> tauto
      · simp only [List.mem_cons, List.not_mem_nil, or_false] at h; tauto
    rw [if_neg e1] at hm
    by_cases e2 : pathName g = "tree-sitter-angular"
    · rw [if_pos e2] at hm
      rcases List.mem_append.mp hm with h | h
      · rcases header_mem w _ h with rfl | rfl | rfl <;> tauto
      · simp only [List.mem_cons, List.not_mem_nil, or_false] at h; tauto
    rw [if_neg e2] at hm
    by_cases e3 : pathName g = "tree-sitter-glimmer"
    · rw [if_pos e3] at hm
      rcases List.mem_append.mp hm with h | h
      · rcases header_mem w _ h with rfl | rfl | rfl <;> tauto
      · simp only [List.mem_cons, List.not_mem_nil, or_false] at h; tauto
    rw [if_neg e3] at hm
    by_cases e4 : pathName g = "tree-sitter-odin"
    · rw [if_pos e4] at hm
      rcases List.mem_append.mp hm with h | h
      · rcases header_mem w _ h with rfl | rfl | rfl <;> tauto
      · simp only [List.mem_cons, List.not_mem_nil, or_false] at h; tauto
    rw [if_neg e4] at hm
    by_cases hb : (buildPhase w o (pathName g) (relocate (pathName g) g)).2 = true
    · rw [if_pos hb] at hm
      rcases List.mem_append.mp hm with h | h
      · rcases header_mem w _ h with rfl | rfl | rfl <;> tauto
      · tauto
    · rw [if_neg hb] at hm
      rw [Bool.not_eq_true] at hb
      by_cases hl : (licensePhase w o (pathName g) (relocate (pathName g) g)).2 = true
      · rw [if_pos hl] at hm
        rcases List.mem_append.mp hm with h | h
        · rcases List.mem_append.mp h with h | h
          · rcases header_mem w _ h with rfl | rfl | rfl <;> tauto
          · tauto
        · tauto
      · rw [if_neg hl] at hm
        rcases List.mem_append.mp hm with h | h
        · rcases List.mem_append.mp h with h | h
          · rcases List.mem_append.mp h with h | h
            · rcases header_mem w _ h with rfl | rfl | rfl <;> tauto
            · tauto
          · tauto
        · split at h <;>
            simp only [List.mem_cons, List.not_mem_nil, or_false] at h
          tauto



/-- Auxiliary facts about `run` for claim C5. -/
theorem run_stream_mem (w : World) (c : List String) (d : Path) (e : String) :
    (∀ line ∈ (w.exec c d).stdout, Event.logInfo line ∈ (run w c d e).1) ∧
    (∀ line ∈ (w.exec c d).stderr, Event.logInfo line ∈ (run w c d e).1) := by
  constructor
  · intro line hl
    have hb : Event.logInfo line ∈ List.map Event.logInfo (w.exec c d).stdout :=
      List.mem_map_of_mem _ hl
    simp only [run]
    split
    · exact List.mem_append_left _ (List.mem_append_right _ hb)
    · exact List.mem_append_left _
        (List.mem_append_left _ (List.mem_append_right _ hb))
  · intro line hl
    have hb : Event.logInfo line ∈ List.map Event.logInfo (w.exec c d).stderr :=
      List.mem_map_of_mem _ hl
    simp only [run]
    split
    · exact List.mem_append_right _ hb
    · exact List.mem_append_left _ (List.mem_append_right _ hb)

/-- C5: `run` executes the command, never raises on a non-zero exit code: it
returns `false` after logging the error message, and every captured stdout
and stderr line is forwarded to the logger regardless of the exit code. -/
theorem claim_run_forwards_output_and_fails_normally (w : World)
    (c : List String) (d : Path) (e : String) :
    ((run w c d e).2 = false ↔ (w.exec c d).returncode ≠ 0) ∧
    ((run w c d e).2 = false → Event.logError e ∈ (run w c d e).1) ∧
    (∀ line ∈ (w.exec c d).stdout, Event.logInfo line ∈ (run w c d e).1) ∧
    (∀ line ∈ (w.exec c d).stderr, Event.logInfo line ∈ (run w c d e).1) := by
  refine ⟨?_, ?_, (run_stream_mem w c d e).1, (run_stream_mem w c d e).2⟩
  · rw [run_snd]
    simp
  · intro hf
    rw [run_snd] at hf
    simp only [run, hf]
    simp

theorem claim_run_forwards_output_witness :
    (run c5World ["x"] ["d"] "boom").2 = false ∧
    Event.logError "boom" ∈ (run c5World ["x"] ["d"] "boom").1 ∧
    Event.logInfo "outline" ∈ (run c5World ["x"] ["d"] "boom").1 ∧
    Event.logInfo "errline" ∈ (run c5World ["x"] ["d"] "boom").1 := by
  have h := claim_run_forwards_output_and_fails_normally c5World ["x"] ["d"] "boom"
  exact ⟨h.1.mpr (by decide), h.2.1 (h.1.mpr (by decide)),
    h.2.2.1 "outline" (by decide), h.2.2.2 "errline" (by decide)⟩

/-- C9: an entry that is not a directory is skipped with a log line: no
command, no license resolution, no artifact write, and no crash. -/
theorem claim_nondir_entry_skipped (w : World) (o g : Path)
    (h : w.isDir g = false) :
    processGrammar w o g =
      ([Event.logInfo ("skipping path: " ++ pathToString g)], false) := by
  simp only [processGrammar]
  rw [if_pos h]

theorem claim_nondir_entry_skipped_witness :
    processGrammar c9World ["out"] ["grammars", "x.txt"] =
      ([Event.logInfo ("skipping path: " ++ pathToString ["grammars", "x.txt"])],
       false) :=
  claim_nondir_entry_skipped c9World ["out"] ["grammars", "x.txt"] rfl



/-- C6: excluded project names are skipped with a logged reason and no
external toolchain command is ever invoked for them. -/
theorem claim_excluded_never_built (w : World) (o g : Path)
    (hdir : w.isDir g = true)
    (hn : pathName g ∈ ["tree-sitter-adl", "tree-sitter-angular",
      "tree-sitter-glimmer", "tree-sitter-odin"]) :
    ((processGrammar w o g).1.all noExecEvent) = true ∧
    ((processGrammar w o g).1.any skipLogEvent) = true := by
  have hd' : ¬(w.isDir g = false) := by simp [hdir]
  simp only [List.mem_cons, List.not_mem_nil, or_false] at hn
  rcases hn with h | h | h | h <;>
    constructor <;>
      (cases hb : w.ci <;>
        simp +decide [processGrammar, if_neg hd', h, hb, noExecEvent,
          skipLogEvent, Event.isExec])

theorem claim_excluded_never_built_witness :
    ((processGrammar c6World ["out"] ["grammars", "tree-sitter-adl"]).1.all
      noExecEvent) = true ∧
    ((processGrammar c6World ["out"] ["grammars", "tree-sitter-adl"]).1.any
      skipLogEvent) = true :=
  claim_excluded_never_built c6World ["out"] ["grammars", "tree-sitter-adl"]
    rfl (by decide)



theorem copyDestIs_of_not_copy {e : Event} (h : e.isCopy = false)
    (o : Path) (f : String) : copyDestIs o f e = true := by
  cases e <;> simp_all [copyDestIs, Event.isCopy]

theorem copy_lic_dest (w : World) (o : Path) (n : String) (src : Path) :
    ∀ ev ∈ (copy_lic w o n src).1, copyDestIs o (n ++ ".LICENSE") ev = true := by
  intro ev hm
  simp only [copy_lic] at hm
  split at hm <;> simp only [List.mem_cons, List.not_mem_nil, or_false] at hm
  · rcases hm with rfl | rfl
    · rfl
    · simp [copyDestIs]
  · rcases hm with rfl; rfl

theorem licensePhase_override_dest (w : World) (o : Path) (n : String)
    (g : Path)
    (hn : n ∈ ["tree-sitter-dhall", "tree-sitter-rcl", "tree-sitter-ron",
      "tree-sitter-slint"]) :
    ∀ ev ∈ (licensePhase w o n g).1, copyDestIs o (n ++ ".LICENSE") ev = true := by
  intro ev hm
  simp only [List.mem_cons, List.not_mem_nil, or_false] at hn
  rcases hn with h | h | h | h <;> subst h <;>
    simp only [licensePhase] at hm <;>
    rw [if_pos trivial] at hm <;>
    exact copy_lic_dest _ _ _ _ ev hm

/-- C10: for the four license-override projects, every copied license lands
at `{project-name}.LICENSE`, whatever the source file was called. -/
theorem claim_override_license_dest (w : World) (o g : Path)
    (hn : pathName g ∈ ["tree-sitter-dhall", "tree-sitter-rcl",
      "tree-sitter-ron", "tree-sitter-slint"]) :
    ((processGrammar w o g).1.all
      (copyDestIs o (pathName g ++ ".LICENSE"))) = true := by
  rw [List.all_eq_true]
  intro ev hm
  rcases processGrammar_mem w o g hm with
    rfl | rfl | rfl | rfl | rfl | rfl | hbp | ⟨-, hlp⟩ | rfl
  · rfl
  · rfl
  · rfl
  · rfl
  · rfl
  · rfl
  · exact copyDestIs_of_not_copy
      (buildPhase_no_copy w o (pathName g) (relocate (pathName g) g) ev hbp) o _
  · exact licensePhase_override_dest w o (pathName g) (relocate (pathName g) g)
      hn ev hlp
  · rfl

theorem claim_override_license_dest_witness :
    ((processGrammar c10World ["out"] ["grammars", "tree-sitter-ron"]).1.all
      (copyDestIs ["out"] ("tree-sitter-ron" ++ ".LICENSE"))) = true ∧
    ((processGrammar c10World ["out"] ["grammars", "tree-sitter-ron"]).1.any
      Event.isCopy) = true :=
  ⟨claim_override_license_dest c10World ["out"] ["grammars", "tree-sitter-ron"]
    (by decide), by decide⟩



theorem pathName_append (g : Path) (c : String) : pathName (g ++ [c]) = c := by
  simp [pathName]

/-- C4: when both `LICENSE*` and `COPYING*` match, the `COPYING*` match wins
and the copied destination filename is `{project-name}.COPYING`. -/
theorem claim_copying_preferred (w : World) (o g : Path) (n : String)
    (hn : n ∉ ["tree-sitter-dhall", "tree-sitter-rcl", "tree-sitter-ron",
      "tree-sitter-slint"])
    (hcop : ((w.listDir g).filter fun s => startsWith s "COPYING") ≠ [])
    (hlic : ((w.listDir g).filter fun s => startsWith s "LICENSE") ≠ [])
    (hex : w.fileExists (g ++
      [((w.listDir g).filter fun s => startsWith s "COPYING").headD ""]) = true) :
    selectLic w g = some (g ++
      [((w.listDir g).filter fun s => startsWith s "COPYING").headD ""]) ∧
    startsWith (((w.listDir g).filter fun s => startsWith s "COPYING").headD "")
      "COPYING" = true ∧
    licenseWrites (licensePhase w o n g).1 =
      [pathToString (o ++ [n ++ ".COPYING"])] := by
  simp only [List.mem_cons, List.not_mem_nil, or_false, not_or] at hn
  obtain ⟨hn1, hn2, hn3, hn4⟩ := hn
  rcases hc : (w.listDir g).filter fun s => startsWith s "COPYING" with - | ⟨c, cs⟩
  · exact absurd hc hcop
  have hmem : c ∈ (w.listDir g).filter fun s => startsWith s "COPYING" := by
    rw [hc]
    exact List.mem_cons_self c cs
  have hcw : startsWith c "COPYING" = true := (List.mem_filter.mp hmem).2
  have hsel : selectLic w g = some (g ++ [c]) := by
    simp only [selectLic, hc]
  simp only [List.headD_cons]
  refine ⟨hsel, hcw, ?_⟩
  rw [hc] at hex
  simp only [List.headD_cons] at hex
  simp only [licensePhase, if_neg hn1, if_neg hn2, if_neg hn3, if_neg hn4, hsel]
  rw [if_pos hex, pathName_append, hcw]
  simp [licenseWrites]
  rw [String.append_assoc]
  rfl

theorem claim_copying_preferred_witness :
    selectLic c4World ["gr"] = some ["gr", "COPYING.md"] ∧
    startsWith "COPYING.md" "COPYING" = true ∧
    licenseWrites (licensePhase c4World ["out"] "tree-sitter-zig" ["gr"]).1 =
      [pathToString (["out"] ++ ["tree-sitter-zig" ++ ".COPYING"])] :=
  ⟨by decide, by decide,
    (claim_copying_preferred c4World ["out"] ["gr"] "tree-sitter-zig"
      (by decide) (by decide) (by decide) (by decide)).2.2⟩



/-- C1 counterexample: for `tree-sitter-wasm`, the build of the `wast` unit
fails (a failed exec event is in the trace) and the license file is written
anyway. -/
theorem claim_all_units_counterexample :
    ((processGrammar wasmFailWorld ["out"]
        ["grammars", "tree-sitter-wasm"]).1.any Event.isCopy) = true ∧
    ((processGrammar wasmFailWorld ["out"]
        ["grammars", "tree-sitter-wasm"]).1.all execAllOk) = false := by
  decide

/-- C1 amended: for every project that is not handled by the multi-unit
builder (`tree-sitter-markdown`, `tree-sitter-ocaml`,
`tree-sitter-typescript`, `tree-sitter-wasm`), artifacts and license are only
written when every executed build command succeeded. -/
theorem claim_all_units_amended (w : World) (o g : Path)
    (hm1 : pathName g ≠ "tree-sitter-markdown")
    (hm2 : pathName g ≠ "tree-sitter-ocaml")
    (hm3 : pathName g ≠ "tree-sitter-typescript")
    (hm4 : pathName g ≠ "tree-sitter-wasm")
    (hcopy : ((processGrammar w o g).1.any Event.isCopy) = true) :
    ((processGrammar w o g).1.all execAllOk) = true := by
  rw [List.any_eq_true] at hcopy
  obtain ⟨ev0, hm0, hc0⟩ := hcopy
  rcases processGrammar_mem w o g hm0 with
    rfl | rfl | rfl | rfl | rfl | rfl | hbp | ⟨hb, -⟩ | rfl
  · simp [Event.isCopy] at hc0
  · simp [Event.isCopy] at hc0
  · simp [Event.isCopy] at hc0
  · simp [Event.isCopy] at hc0
  · simp [Event.isCopy] at hc0
  · simp [Event.isCopy] at hc0
  · rw [buildPhase_no_copy w o (pathName g) (relocate (pathName g) g) ev0 hbp]
      at hc0
    exact absurd hc0 (by decide)
  · rw [List.all_eq_true]
    intro ev hm
    rcases processGrammar_mem w o g hm with
      rfl | rfl | rfl | rfl | rfl | rfl | hbp | ⟨-, hlp⟩ | rfl
    · rfl
    · rfl
    · rfl
    · rfl
    · rfl
    · rfl
    · exact buildPhase_all_ok w o (pathName g) (relocate (pathName g) g)
        hm1 hm2 hm3 hm4 hb ev hbp
    · have hx := licensePhase_no_exec w o (pathName g)
        (relocate (pathName g) g) ev hlp
      simp [execAllOk, hx]
    · rfl
  · simp [Event.isCopy] at hc0

theorem claim_all_units_amended_witness :
    ((processGrammar allOkWorld ["out"] ["grammars", "tree-sitter-zig"]).1.any
      Event.isCopy) = true ∧
    ((processGrammar allOkWorld ["out"] ["grammars", "tree-sitter-zig"]).1.all
      execAllOk) = true :=
  ⟨by decide,
    claim_all_units_amended allOkWorld ["out"] ["grammars", "tree-sitter-zig"]
      (by decide) (by decide) (by decide) (by decide) (by decide)⟩



/-- C3 counterexample: `tree-sitter-dhall` with a missing `LICENSE` file
crashes the batch (`shutil.copy` raises), and the following project
`tree-sitter-zig` is never processed. -/
theorem claim_batch_continues_counterexample :
    (build noLicenseWorld ["out"]
      [["grammars", "tree-sitter-dhall"], ["grammars", "tree-sitter-zig"]]).2
      = true ∧
    ((build noLicenseWorld ["out"]
      [["grammars", "tree-sitter-dhall"], ["grammars", "tree-sitter-zig"]]).1.any
      (logsBuildingOf "tree-sitter-zig")) = false := by
  decide

/-- C3 amended: as long as no project raises while being processed (the only
raise is a hard-coded license copy whose source file is missing), the batch
processes every project in order, concatenating their traces, and never
aborts. -/
theorem claim_batch_continues_amended (w : World) (o : Path) (gs : List Path)
    (h : ∀ g ∈ gs, (processGrammar w o g).2 = false) :
    runBatch w o gs =
      ((gs.map fun g => (processGrammar w o g).1).flatten, false) := by
  induction gs with
  | nil => rfl
  | cons g gs ih =>
    have hg := h g (List.mem_cons_self g gs)
    simp only [runBatch, hg, Bool.false_eq_true, if_false]
    rw [ih fun g' hg' => h g' (List.mem_cons_of_mem g hg')]
    simp

theorem claim_batch_continues_amended_witness :
    runBatch allOkWorld ["out"]
      [["grammars", "tree-sitter-abc"], ["grammars", "tree-sitter-zig"]] =
      ((processGrammar allOkWorld ["out"] ["grammars", "tree-sitter-abc"]).1 ++
        ((processGrammar allOkWorld ["out"] ["grammars", "tree-sitter-zig"]).1
          ++ []),
       false) := by
  have h := claim_batch_continues_amended allOkWorld ["out"]
    [["grammars", "tree-sitter-abc"], ["grammars", "tree-sitter-zig"]]
    (by decide)
  simpa using h



theorem run_exec_mem (w : World) (c : List String) (d : Path) (e : String) :
    Event.exec c d ((w.exec c d).returncode == 0) ∈ (run w c d e).1 := by
  simp only [run]
  split <;> simp

theorem step_mem_left {p n : List Event × Bool} {ev : Event}
    (h : ev ∈ p.1) : ev ∈ (step p n).1 := by
  unfold step
  split
  · exact List.mem_append_left _ h
  · exact h

theorem step_mem_right {p n : List Event × Bool} {ev : Event}
    (hp : p.2 = true) (h : ev ∈ n.1) : ev ∈ (step p n).1 := by
  unfold step
  rw [if_pos hp]
  exact List.mem_append_right _ h

theorem run_execOfCmd {w : World} {c : List String} {d : Path} {e : String}
    {c' : List String} (ev : Event) (hm : ev ∈ (run w c d e).1)
    (hx : execOfCmd c' ev = true) : c' = c := by
  rcases run_event_cases w c d e ev hm with rfl | rfl | rfl | ⟨l, rfl⟩ | rfl <;>
    simp_all [execOfCmd]

/-- C7: a project name in none of the rule tables resolves to the default
plan: exactly one build unit at the own path of the project (no relocation),
with the generation step enabled and no dependency-install step. -/
theorem claim_default_plan (w : World) (o g : Path)
    (hn : pathName g ∉ ["tree-sitter-adl", "tree-sitter-angular",
      "tree-sitter-glimmer", "tree-sitter-odin", "tree-sitter-rcl",
      "tree-sitter-php", "tree-sitter-astro", "tree-sitter-cpp",
      "tree-sitter-c-sharp", "tree-sitter-glsl", "tree-sitter-markdown",
      "tree-sitter-ocaml", "tree-sitter-typescript", "tree-sitter-wasm"]) :
    relocate (pathName g) g = g ∧
    buildPhase w o (pathName g) g =
      ((ts_build w g (pathName g) o true false).1,
       !(ts_build w g (pathName g) o true false).2) ∧
    ((ts_build w g (pathName g) o true false).1.any
      (execOfCmd ["tree-sitter", "generate", "--no-bindings"])) = true ∧
    ((ts_build w g (pathName g) o true false).1.all notNpmInstall) = true := by
  simp only [List.mem_cons, List.not_mem_nil, or_false, not_or] at hn
  obtain ⟨h1, h2, h3, h4, h5, h6, h7, h8, h9, h10, h11, h12, h13, h14⟩ := hn
  refine ⟨?_, ?_, ?_, ?_⟩
  · simp only [relocate, if_neg h5, if_neg h6]
  · simp only [buildPhase, if_neg h7, if_neg h8, if_neg h9, if_neg h10,
      if_neg h11, if_neg h12, if_neg h13, if_neg h14]
  · rw [List.any_eq_true]
    refine ⟨Event.exec ["tree-sitter", "generate", "--no-bindings"]
      (resolvePath g)
      ((w.exec ["tree-sitter", "generate", "--no-bindings"]
        (resolvePath g)).returncode == 0), ?_, by simp [execOfCmd]⟩
    exact step_mem_left (step_mem_right rfl (run_exec_mem w _ _ _))
  · rw [List.all_eq_true]
    intro ev hm
    simp only [ts_build] at hm
    rw [notNpmInstall, Bool.not_eq_eq_eq_not, Bool.not_true]
    rcases step_mem hm with hi | ⟨-, h3'⟩
    · rcases step_mem hi with hi | ⟨-, h2'⟩
      · simp at hi
      · by_contra hx
        rw [Bool.not_eq_false] at hx
        have := run_execOfCmd ev h2' hx
        exact absurd this (by decide)
    · by_contra hx
      rw [Bool.not_eq_false] at hx
      have := run_execOfCmd ev h3' hx
      simp [buildCommand] at this

theorem claim_default_plan_witness :
    relocate (pathName ["grammars", "tree-sitter-zig"])
      ["grammars", "tree-sitter-zig"] = ["grammars", "tree-sitter-zig"] ∧
    buildPhase c7World ["out"] (pathName ["grammars", "tree-sitter-zig"])
      ["grammars", "tree-sitter-zig"] =
      ((ts_build c7World ["grammars", "tree-sitter-zig"]
          (pathName ["grammars", "tree-sitter-zig"]) ["out"] true false).1,
       !(ts_build c7World ["grammars", "tree-sitter-zig"]
          (pathName ["grammars", "tree-sitter-zig"]) ["out"] true false).2) ∧
    ((ts_build c7World ["grammars", "tree-sitter-zig"]
        (pathName ["grammars", "tree-sitter-zig"]) ["out"] true false).1.any
      (execOfCmd ["tree-sitter", "generate", "--no-bindings"])) = true ∧
    ((ts_build c7World ["grammars", "tree-sitter-zig"]
        (pathName ["grammars", "tree-sitter-zig"]) ["out"] true false).1.all
      notNpmInstall) = true :=
  claim_default_plan c7World ["out"] ["grammars", "tree-sitter-zig"]
    (by decide)



/-- C8: with an empty explicit list, the processed projects are exactly the
grammars directory entries in sorted order, and any two enumerations of the
same entries give the same processing order. -/
theorem claim_sorted_enumeration (w w2 : World) (o : Path)
    (hperm : w.grammarsEntries.Perm w2.grammarsEntries) :
    projectList w [] = sortPaths w.grammarsEntries ∧
    (sortPaths w.grammarsEntries).Sorted pathLe ∧
    (sortPaths w.grammarsEntries).Perm w.grammarsEntries ∧
    projectList w [] = projectList w2 [] ∧
    build w o [] = runBatch w o (projectList w []) := by
  refine ⟨rfl, List.sorted_insertionSort pathLe _,
    List.perm_insertionSort pathLe _, ?_, rfl⟩
  have hp : (sortPaths w.grammarsEntries).Perm (sortPaths w2.grammarsEntries) :=
    ((List.perm_insertionSort pathLe _).trans hperm).trans
      (List.perm_insertionSort pathLe _).symm
  exact List.eq_of_perm_of_sorted hp
    (List.sorted_insertionSort pathLe _) (List.sorted_insertionSort pathLe _)

theorem claim_sorted_enumeration_witness :
    projectList c8World [] = sortPaths c8World.grammarsEntries ∧
    (sortPaths c8World.grammarsEntries).Sorted pathLe ∧
    (sortPaths c8World.grammarsEntries).Perm c8World.grammarsEntries ∧
    projectList c8World [] = projectList c8World2 [] ∧
    build c8World ["out"] [] = runBatch c8World ["out"] (projectList c8World []) :=
  claim_sorted_enumeration c8World c8World2 ["out"] (by decide)



/-- C2 counterexample: with every command succeeding, `tree-sitter-wasm`
performs two library writes, but both to the same filename, so the output
directory receives exactly one library file, not two. -/
theorem claim_two_library_files_counterexample :
    ((processGrammar allOkWorld ["out"]
        ["grammars", "tree-sitter-wasm"]).1.all execAllOk) = true ∧
    libWrites (processGrammar allOkWorld ["out"]
        ["grammars", "tree-sitter-wasm"]).1 =
      ["out/libtree-sitter-wasm.so", "out/libtree-sitter-wasm.so"] ∧
    ¬((libWrites (processGrammar allOkWorld ["out"]
        ["grammars", "tree-sitter-wasm"]).1).dedup.length = 2) ∧
    (libWrites (processGrammar allOkWorld ["out"]
        ["grammars", "tree-sitter-wasm"]).1).dedup.length = 1 ∧
    licenseWrites (processGrammar allOkWorld ["out"]
        ["grammars", "tree-sitter-wasm"]).1 = ["out/tree-sitter-wasm.LICENSE"] := by
  decide

theorem libWrites_append (l1 l2 : List Event) :
    libWrites (l1 ++ l2) = libWrites l1 ++ libWrites l2 := by
  simp [libWrites, List.filterMap_append]

theorem licenseWrites_append (l1 l2 : List Event) :
    licenseWrites (l1 ++ l2) = licenseWrites l1 ++ licenseWrites l2 := by
  simp [licenseWrites, List.filterMap_append]

theorem libWrites_map_logInfo (l : List String) :
    libWrites (l.map Event.logInfo) = [] := by
  induction l <;> simp_all [libWrites]

theorem licenseWrites_map_logInfo (l : List String) :
    licenseWrites (l.map Event.logInfo) = [] := by
  induction l <;> simp_all [licenseWrites]

theorem licenseWrites_nil_of_no_copy {l : List Event}
    (h : ∀ ev ∈ l, ev.isCopy = false) : licenseWrites l = [] := by
  induction l with
  | nil => rfl
  | cons e l ih =>
    have he := h e (List.mem_cons_self e l)
    have hl := fun x hx => h x (List.mem_cons_of_mem e hx)
    cases e <;> simp_all [licenseWrites, Event.isCopy]

theorem libWrites_run_build (w : World) (n : String) (o d : Path) (e : String) :
    libWrites (run w (buildCommand w n o) d e).1 =
      if ((w.exec (buildCommand w n o) d).returncode == 0)
      then [pathToString (o ++ [libFileName w n])] else [] := by
  simp only [run]
  split <;> rename_i h <;> dsimp only <;> simp only [buildCommand] at h
  · rw [libWrites_append, libWrites_append, libWrites_map_logInfo,
      libWrites_map_logInfo]
    simp only [libWrites, buildCommand, List.filterMap_cons]
    rw [h]
    rfl
  · rw [Bool.not_eq_true] at h
    rw [libWrites_append, libWrites_append, libWrites_append,
      libWrites_map_logInfo, libWrites_map_logInfo]
    simp only [libWrites, buildCommand, List.filterMap_cons]
    rw [h]
    rfl

theorem libWrites_run_gen (w : World) (d : Path) (e : String) :
    libWrites (run w ["tree-sitter", "generate", "--no-bindings"] d e).1 = [] := by
  simp only [run]
  split <;>
    simp [libWrites, List.filterMap_append, List.filterMap_cons,
      libWrites_map_logInfo]

theorem ts_build_plain (w : World) (g : Path) (n : String) (o : Path) :
    ts_build w g n o false false =
      run w (buildCommand w n o) g (failMsg (buildCommand w n o) g) := rfl



theorem licenseWrites_run (w : World) (c : List String) (d : Path)
    (e : String) : licenseWrites (run w c d e).1 =
      ([] : List String) :=
  licenseWrites_nil_of_no_copy (run_no_copy w c d e)

/-- C2 amended: for `tree-sitter-wasm`, when the commands of both units
succeed and a license is present, exactly two library writes occur, both to the same
filename `libtree-sitter-wasm.{suffix}` (one distinct library file after
deduplication), and exactly one license file is written. -/
theorem claim_two_library_files_amended (w : World) (o g lp : Path)
    (hdir : w.isDir g = true)
    (hname : pathName g = "tree-sitter-wasm")
    (hok : ∀ c d, (w.exec c d).returncode = 0)
    (hsel : selectLic w g = some lp)
    (hex : w.fileExists lp = true) :
    libWrites (processGrammar w o g).1 =
      [pathToString (o ++ [libFileName w "tree-sitter-wasm"]),
       pathToString (o ++ [libFileName w "tree-sitter-wasm"])] ∧
    (libWrites (processGrammar w o g).1).dedup =
      [pathToString (o ++ [libFileName w "tree-sitter-wasm"])] ∧
    (licenseWrites (processGrammar w o g).1).length = 1 := by
  have hd' : ¬(w.isDir g = false) := by simp [hdir]
  have hrc : ∀ d : Path,
      ((w.exec (buildCommand w "tree-sitter-wasm" o) d).returncode == 0)
        = true := by
    intro d
    rw [hok]
    rfl
  have hrel : relocate "tree-sitter-wasm" g = g := by
    simp only [relocate]
    rw [if_neg (by decide), if_neg (by decide)]
  have hbp : buildPhase w o "tree-sitter-wasm" g =
      (build_multi w g "tree-sitter-wasm" o [["wast"], ["wat"]] false false,
       false) := by
    simp only [buildPhase]
    rw [if_neg (by decide), if_neg (by decide), if_neg (by decide),
      if_neg (by decide), if_neg (by decide), if_neg (by decide),
      if_neg (by decide), if_pos trivial]
  have hlp : licensePhase w o "tree-sitter-wasm" g =
      ([Event.logInfo ("copying " ++ pathToString lp),
        Event.copyFile lp (o ++ ["tree-sitter-wasm" ++ "." ++
          (if startsWith (pathName lp) "COPYING" then "COPYING"
           else "LICENSE")])],
       false) := by
    simp only [licensePhase]
    rw [if_neg (by decide), if_neg (by decide), if_neg (by decide),
      if_neg (by decide), hsel]
    dsimp only
    rw [if_pos hex]
  have hbm : build_multi w g "tree-sitter-wasm" o [["wast"], ["wat"]]
      false false =
      (run w (buildCommand w "tree-sitter-wasm" o) (g ++ ["wast"])
        (failMsg (buildCommand w "tree-sitter-wasm" o) (g ++ ["wast"]))).1 ++
      ((run w (buildCommand w "tree-sitter-wasm" o) (g ++ ["wat"])
        (failMsg (buildCommand w "tree-sitter-wasm" o) (g ++ ["wat"]))).1
        ++ []) := by
    simp only [build_multi, List.map_cons, List.map_nil, List.flatten_cons,
      List.flatten_nil, ts_build_plain]
  have key : (processGrammar w o g).1 =
      ((if w.ci then
          [Event.printLine ("::group::Build " ++ "tree-sitter-wasm")]
        else [Event.printLine "---"])
       ++ [Event.logInfo ("building grammar: " ++ "tree-sitter-wasm")])
      ++ (build_multi w g "tree-sitter-wasm" o [["wast"], ["wat"]] false false
      ++ ([Event.logInfo ("copying " ++ pathToString lp),
           Event.copyFile lp (o ++ ["tree-sitter-wasm" ++ "." ++
             (if startsWith (pathName lp) "COPYING" then "COPYING"
              else "LICENSE")])]
      ++ (if w.ci then [Event.printLine "\n::endgroup::"] else []))) := by
    simp only [processGrammar]
    rw [if_neg hd']
    simp only [hname]
    rw [if_neg (by decide), if_neg (by decide), if_neg (by decide),
      if_neg (by decide), hrel, hbp]
    rw [if_neg (by simp)]
    rw [hlp]
    rw [if_neg (by simp)]
    simp [List.append_assoc]
  rw [key, hbm]
  refine ⟨?_, ?_, ?_⟩
  · cases hci : w.ci <;>
      (simp only [hci, Bool.false_eq_true, if_false, if_true,
        libWrites_append, libWrites_run_build, hrc]
       simp [libWrites])
  · cases hci : w.ci <;>
      (simp only [hci, Bool.false_eq_true, if_false, if_true,
        libWrites_append, libWrites_run_build, hrc]
       simp [libWrites])
  · cases hci : w.ci <;>
      (simp only [hci, Bool.false_eq_true, if_false, if_true,
        licenseWrites_append, licenseWrites_run]
       simp [licenseWrites])


theorem claim_two_library_files_amended_witness :
    libWrites (processGrammar allOkWorld ["out"]
        ["grammars", "tree-sitter-wasm"]).1 =
      [pathToString (["out"] ++ [libFileName allOkWorld "tree-sitter-wasm"]),
       pathToString (["out"] ++ [libFileName allOkWorld "tree-sitter-wasm"])] ∧
    (libWrites (processGrammar allOkWorld ["out"]
        ["grammars", "tree-sitter-wasm"]).1).dedup =
      [pathToString (["out"] ++ [libFileName allOkWorld "tree-sitter-wasm"])] ∧
    (licenseWrites (processGrammar allOkWorld ["out"]
        ["grammars", "tree-sitter-wasm"]).1).length = 1 :=
  claim_two_library_files_amended allOkWorld ["out"]
    ["grammars", "tree-sitter-wasm"] ["grammars", "tree-sitter-wasm", "LICENSE"]
    rfl (by decide) (fun _ _ => rfl) (by decide) rfl

end Make
